import Mathlib

/-!
Shallow embedding of `manage_project.py`, the consolidated project-management
CLI of this repository.  Pure parts of the Python code (string normalization,
phase-id canonicalization, sorting, Markdown rendering) become Lean functions;
the stateful command handlers become functions from explicit file states to an
outcome value that records the final file contents, the rendered Markdown and
the printed messages.  File contents are modelled at the level the handlers
observe them: a JSON document file is `absent`, `corrupt` (exists but does not
parse as JSON / validate as the document type), or `valid d` with `d` the
parsed document.
-/

namespace ManageProject

/-! ## Python string and number primitives (ASCII fragment) -/

/-- Characters stripped by Python `str.strip()` (ASCII whitespace fragment). -/
def isPyWhitespace (c : Char) : Bool :=
  c == ' ' || c == '\t' || c == '\n' || c == '\r' || c == '\x0b' || c == '\x0c'

/-- Remove leading and trailing Python whitespace from a character list. -/
def stripWs (l : List Char) : List Char :=
  ((l.dropWhile isPyWhitespace).reverse.dropWhile isPyWhitespace).reverse

/-- Python `str.strip()` (ASCII fragment). -/
def pyStrip (s : String) : String :=
  ⟨stripWs s.data⟩

/-- Continue parsing the digits of a Python `int()` literal: ASCII digits with
single underscores allowed between digits, accumulating the value. -/
def digitsRest (acc : Nat) : List Char → Option Nat
  | [] => some acc
  | '_' :: c :: cs =>
    if c.isDigit then digitsRest (acc * 10 + (c.toNat - 48)) cs else none
  | c :: cs =>
    if c.isDigit then digitsRest (acc * 10 + (c.toNat - 48)) cs else none

/-- Parse a nonempty ASCII digit sequence (with Python underscore grouping). -/
def digitsVal : List Char → Option Nat
  | [] => none
  | c :: cs => if c.isDigit then digitsRest (c.toNat - 48) cs else none

/-- Python `int(s)` for base-10 strings (ASCII fragment): optional surrounding
whitespace, optional sign, nonempty digits with underscore grouping; `none`
models the `ValueError` branch. -/
def pyParseInt (s : String) : Option Int :=
  match stripWs s.data with
  | '+' :: rest => (digitsVal rest).map (fun n => (n : Int))
  | '-' :: rest => (digitsVal rest).map (fun n => -(n : Int))
  | rest => (digitsVal rest).map (fun n => (n : Int))

/-- Python f-string `{n:02d}`: zero-pad to minimum width 2.  Only the values
0..9 print shorter than two characters (a negative sign counts toward the
width), so exactly those get a leading zero. -/
def pyFormat02d (n : Int) : String :=
  if 0 ≤ n ∧ n < 10 then "0" ++ toString n else toString n

/-- Python `str.lower()` (ASCII fragment): lowercase every character. -/
def pyLower (s : String) : String :=
  ⟨s.data.map Char.toLower⟩

/-- Python truthiness of an optional string option (`argparse` yields `None`
for an absent option): `None` and the empty string are falsy. -/
def pyTruthy (o : Option String) : Bool :=
  match o with
  | none => false
  | some s => !(s == "")

/-- Python `x or d` for an optional string `x`: the default replaces both
`None` and the empty string. -/
def pyOr (o : Option String) (d : String) : String :=
  match o with
  | none => d
  | some s => if s == "" then d else s

/-- Python `s.replace("phase", "")` on a character list: every non-overlapping
occurrence of `phase` is removed, scanning left to right, without rescanning
the produced text. -/
def removePhaseOcc : List Char → List Char
  | 'p' :: 'h' :: 'a' :: 's' :: 'e' :: rest => removePhaseOcc rest
  | c :: rest => c :: removePhaseOcc rest
  | [] => []

/-- Python `str.isdigit()` (ASCII fragment): nonempty and all digits. -/
def pyIsdigit (s : String) : Bool :=
  !s.data.isEmpty && s.data.all Char.isDigit

/-- Value of an all-digit string (what `int` returns on `isdigit` input). -/
def natDigitsVal (l : List Char) : Nat :=
  l.foldl (fun a c => a * 10 + (c.toNat - 48)) 0

/-- Python `ts.split("T")[0]` / `strftime("%Y-%m-%d")` on an ISO timestamp
string: the date part before the `T` separator. -/
def dateOnly (ts : String) : String :=
  ⟨ts.data.takeWhile (fun c => c != 'T')⟩

/-! ## Python `dict` as an insertion-ordered association list -/

/-- `d[k]` lookup. -/
def dictGet {α : Type} (d : List (String × α)) (k : String) : Option α :=
  match d with
  | [] => none
  | (k1, v) :: rest => if k1 = k then some v else dictGet rest k

/-- `d[k] = v` assignment: updates in place when the key exists (position
preserved), otherwise appends at the end, as a Python `dict` does. -/
def dictInsert {α : Type} (d : List (String × α)) (k : String) (v : α) :
    List (String × α) :=
  match d with
  | [] => [(k, v)]
  | (k1, v1) :: rest =>
    if k1 = k then (k1, v) :: rest else (k1, v1) :: dictInsert rest k v

/-! ## Data models (the pydantic `BaseModel` classes) -/

/-- `LogEntry`: execution log entry for a phase. -/
structure LogEntry where
  timestamp : String
  action : String
  outcome : String
  artifacts : List String
deriving DecidableEq

/-- `UsageExample`: code example for phase outcomes. -/
structure UsageExample where
  title : String
  code : String
  description : Option String
deriving DecidableEq

/-- `FAQItem`: frequently asked question. -/
structure FAQItem where
  question : String
  answer : String
deriving DecidableEq

/-- `PhaseResults`: comprehensive results for a phase.  The free-form JSON
`metrics` mapping is modelled as string-valued entries (no claim depends on
the metric values). -/
structure PhaseResults where
  phase_id : String
  title : String
  status : String
  start_date : String
  end_date : Option String
  objectives : List String
  execution_log : List LogEntry
  metrics : List (String × String)
  key_findings : List String
  conclusion : Option String
  next_steps : List String
  faq : List FAQItem
  usage_examples : List UsageExample
  logs : List String
  additional_docs : List String
deriving DecidableEq

/-- `PhaseResults(phase_id=..., title=...)` with the field defaults of the
model: status `"Pending"`, start date today, everything else empty. -/
def newPhaseResults (pid title today : String) : PhaseResults :=
  ⟨pid, title, "Pending", today, none, [], [], [], [], none, [], [], [], [], []⟩

/-- `Lesson`: a lesson learned; the `datetime` timestamp is modelled as its
ISO string. -/
structure Lesson where
  text : String
  timestamp : String
deriving DecidableEq

/-- `LessonsRegistry`: mapping from phase id to the ordered lesson list. -/
structure LessonsRegistry where
  phases : List (String × List Lesson)
deriving DecidableEq

/-- `InventoryItem`: registration entry for a project script. -/
structure InventoryItem where
  path : String
  category : String
  description : String
  status : String
  usage : Option String
deriving DecidableEq

/-- `InventoryRegistry`: mapping from path to item. -/
structure InventoryRegistry where
  items : List (String × InventoryItem)
deriving DecidableEq

/-- `PhaseEntry`: roadmap entry for a phase. -/
structure PhaseEntry where
  id : String
  title : String
  status : String
  description : String
deriving DecidableEq

/-- `OverviewRegistry`: high-level project overview data. -/
structure OverviewRegistry where
  title : String
  mission : String
  architecture : String
  phases : List PhaseEntry
  faq : List FAQItem
  extra_sections : List (String × String)
deriving DecidableEq

/-- `OverviewRegistry()` default construction. -/
def defaultOverview : OverviewRegistry :=
  ⟨"Project HYPERBORG Overview", "", "", [], [], []⟩

/-- `PlanItem`: a single planned execution step. -/
structure PlanItem where
  step : String
  timestamp : String
deriving DecidableEq

/-- `PhasePlan`: execution plan for a phase. -/
structure PhasePlan where
  phase_id : String
  title : String
  items : List PlanItem
deriving DecidableEq

/-! ## Phase id canonicalization (three code sites) -/

/-- `PhaseResults.get_dir`: the directory token derived from the phase id
(the constant `PHASES_ROOT` prefix of the returned path is omitted). -/
def PhaseResults.getDirname (p : PhaseResults) : String :=
  match pyParseInt p.phase_id with
  | some n => "phase_" ++ pyFormat02d n
  | none => "phase_" ++ p.phase_id

/-- The identical try/except canonicalization at the top of `cmd_log`. -/
def cmdLogDirname (pid : String) : String :=
  match pyParseInt pid with
  | some n => "phase_" ++ pyFormat02d n
  | none => "phase_" ++ pid

/-- The identical try/except canonicalization at the top of `cmd_plan`. -/
def cmdPlanDirname (pid : String) : String :=
  match pyParseInt pid with
  | some n => "phase_" ++ pyFormat02d n
  | none => "phase_" ++ pid

/-! ## File states, printed messages, and the generic loader -/

/-- Observable state of a JSON document file: `absent` (no file), `corrupt`
(the file exists but its content does not parse as JSON or does not validate
as the document type), or `valid d` with the parsed document. -/
inductive FileState (α : Type) where
  | absent
  | corrupt
  | valid (d : α)
deriving DecidableEq

/-- One constructor per `print` call in the source, carrying the interpolated
values that matter to the claims.  Distinct constructors model distinct
printed lines. -/
inductive Msg where
  | errorLoading
  | errorTitleRequired
  | initializedPhase (pid : String)
  | errorPhaseNotFound (pid : String)
  | errorActiveNeedsPlan
  | errorPlanEmpty
  | updatedPhase (pid : String)
  | planAlreadyExists (pid : String)
  | initializedPlan (pid : String)
  | errorPlanNotFound
  | addedPlanItem
  | renderedPlan
  | renderedLessons
  | errorPhaseTextRequired
  | lessonAdded (pid : String)
  | duplicateLesson
  | renderedInventory
  | errorPathRequired
  | updatedInventory (path : String)
  | renderedOverview
  | addedFaq (q : String)
  | updatedOverviewPhase (pid : String)
deriving DecidableEq

/-- `load_json(path, model_cls)`: absent file yields the default-constructed
document, except for `PhaseResults` where it yields `None`; a file that fails
to parse or validate prints an error line and yields the default-constructed
document. -/
def load_json {α : Type} (isPhaseResults : Bool) (defaultDoc : α)
    (st : FileState α) : Option α × List Msg :=
  match st with
  | .absent => (if isPhaseResults then none else some defaultDoc, [])
  | .corrupt => (some defaultDoc, [.errorLoading])
  | .valid d => (some d, [])

/-! ## Python `sorted` as a stable insertion sort -/

/-- Insert `x` before the first element it compares `le` to; elements the
comparison skips stay in front, so earlier input elements stay before equal
later ones. -/
def insertBy {α : Type} (le : α → α → Bool) (x : α) : List α → List α
  | [] => [x]
  | y :: ys => if le x y then x :: y :: ys else y :: insertBy le x ys

/-- Stable insertion sort; with a key-based comparison this computes the same
list as Python `sorted(l, key=f)` (Timsort is stable, and the stable sort by
a key is unique). -/
def insertionSortBy {α : Type} (le : α → α → Bool) : List α → List α
  | [] => []
  | x :: xs => insertBy le x (insertionSortBy le xs)

/-- Python `sorted(l, key=f)` for an integer-valued key. -/
def sortByKey {α : Type} (f : α → Int) (l : List α) : List α :=
  insertionSortBy (fun a b => decide (f a ≤ f b)) l

/-- The `cmd_lessons` render sort key: `int(x) if x.isdigit() else 999`. -/
def lessonsSortKey (x : String) : Int :=
  if pyIsdigit x then (natDigitsVal x.data : Int) else 999

/-- The `cmd_report` render sort key: `int(x.id) if x.id.isdigit() else 999`. -/
def overviewSortKey (e : PhaseEntry) : Int :=
  if pyIsdigit e.id then (natDigitsVal e.id.data : Int) else 999

/-! ## Markdown renderers (pure parts of the handlers) -/

/-- The sorted key sequence over which the `cmd_lessons` render loop runs. -/
def sortedLessonKeys (reg : LessonsRegistry) : List String :=
  sortByKey lessonsSortKey (reg.phases.map Prod.fst)

/-- The Markdown lines produced by `cmd_lessons --render`. -/
def renderLessonsMd (reg : LessonsRegistry) : List String :=
  ["# Project HYPERBORG - Lessons Learned", ""] ++
    (sortedLessonKeys reg).flatMap (fun ph =>
      ("## Phase " ++ ph) ::
        (((dictGet reg.phases ph).getD []).map (fun l =>
          "- **[" ++ dateOnly l.timestamp ++ "]** " ++ l.text) ++ [""]))

/-- The sorted entry sequence over which the `cmd_report` roadmap loop runs. -/
def sortedOverviewPhases (reg : OverviewRegistry) : List PhaseEntry :=
  sortByKey overviewSortKey reg.phases

/-- The Markdown lines produced by `cmd_report --render`. -/
def renderOverviewMd (reg : OverviewRegistry) : List String :=
  (["# " ++ reg.title, "", reg.mission, "", "## Roadmap"] ++
    (sortedOverviewPhases reg).map (fun p =>
      "- **Phase " ++ p.id ++ " (" ++ p.title ++ ")**: [" ++ p.status ++ "]")) ++
  (if reg.faq.isEmpty then [] else
    ["", "## FAQ", ""] ++
      reg.faq.flatMap (fun i => ["### " ++ i.question, i.answer, ""])) ++
  reg.extra_sections.flatMap (fun s => ["", "## " ++ s.1, "", s.2])

/-- The sorted key sequence of the `cmd_inventory` render loop
(lexicographic `sorted(registry.items.keys())`). -/
def sortedInventoryKeys (reg : InventoryRegistry) : List String :=
  insertionSortBy (fun a b => decide (a ≤ b)) (reg.items.map Prod.fst)

/-- The Markdown lines produced by `cmd_inventory --render`. -/
def renderInventoryMd (reg : InventoryRegistry) : List String :=
  ["# Hyperborg Script & Tool Inventory", "",
   "| Path | Description | Status |", "|---|---|---|"] ++
    (sortedInventoryKeys reg).map (fun k =>
      match dictGet reg.items k with
      | some item =>
        "| `" ++ item.path ++ "` | " ++ item.description ++ " | " ++
          item.status ++ " |"
      | none => "")

/-- The Markdown lines of `cmd_plan` (lines built before writing the file);
items are enumerated from 1. -/
def renderPlanItems (i : Nat) : List PlanItem → List String
  | [] => []
  | it :: rest =>
    (toString i ++ ". **[" ++ dateOnly it.timestamp ++ "]** " ++ it.step) ::
      renderPlanItems (i + 1) rest

/-- The Markdown lines produced for a plan by `cmd_plan`. -/
def renderPlanMd (p : PhasePlan) : List String :=
  ["# Plan: Phase " ++ p.phase_id ++ " - " ++ p.title, ""] ++
    renderPlanItems 1 p.items

/-! ## `cmd_log`: the Phase Result handler -/

/-- The argument namespace of the `log` subcommand (`argparse` yields
`none` for an omitted option). -/
structure LogArgs where
  phase_id : String
  init : Bool
  title : Option String
  status : Option String
  action : Option String
  outcome : Option String
  add_obj : Option String
  add_finding : Option String
  add_next : Option String
  add_usage_title : Option String
  add_usage_code : Option String
  add_usage_desc : Option String
  artifacts : Option (List String)
deriving DecidableEq

/-- Result of a `cmd_log` invocation: `exited` models `sys.exit(1)` after the
given printed lines (the results file is untouched), `crashed` models an
uncaught exception (a fatal abort with a traceback), `completed` carries the
saved `PhaseResults` document and the printed lines.  The Markdown render and
copy to the docs directory that follow a save do not touch the JSON document
and are not modelled. -/
inductive LogOutcome where
  | exited (msgs : List Msg)
  | crashed
  | completed (saved : PhaseResults) (msgs : List Msg)
deriving DecidableEq

/-- The update block of `cmd_log` after the status gate: the four optional
appends, then save and the final printed line. -/
def cmdLogAppends (a : LogArgs) (now : String) (p0 : PhaseResults)
    (msgs0 : List Msg) : LogOutcome :=
  let p1 := match a.add_obj with
    | some o => if o == "" then p0 else { p0 with objectives := p0.objectives ++ [o] }
    | none => p0
  let p2 := match a.add_finding with
    | some f0 => if f0 == "" then p1 else { p1 with key_findings := p1.key_findings ++ [f0] }
    | none => p1
  let p3 :=
    if pyTruthy a.add_usage_title && pyTruthy a.add_usage_code then
      { p2 with usage_examples := p2.usage_examples ++
          [⟨a.add_usage_title.getD "", a.add_usage_code.getD "", a.add_usage_desc⟩] }
    else p2
  let p4 :=
    if pyTruthy a.action && pyTruthy a.outcome then
      { p3 with execution_log := p3.execution_log ++
          [⟨now, a.action.getD "", a.outcome.getD "", a.artifacts.getD []⟩] }
    else p3
  .completed p4 (msgs0 ++ [.updatedPhase a.phase_id])

/-- The status-update block of `cmd_log`: a truthy `--status` that lowercases
to `"active"` requires the sibling plan file to exist (read directly from
disk, so a corrupt plan file raises) and to have a nonempty item list. -/
def cmdLogUpdates (a : LogArgs) (plan : FileState PhasePlan) (now : String)
    (phase0 : PhaseResults) (msgs0 : List Msg) : LogOutcome :=
  match a.status with
  | none => cmdLogAppends a now phase0 msgs0
  | some s =>
    if s == "" then cmdLogAppends a now phase0 msgs0
    else if pyLower s == "active" then
      match plan with
      | .absent => .exited (msgs0 ++ [.errorActiveNeedsPlan])
      | .corrupt => .crashed
      | .valid pl =>
        if pl.items.isEmpty then .exited (msgs0 ++ [.errorPlanEmpty])
        else cmdLogAppends a now { phase0 with status := s } msgs0
    else cmdLogAppends a now { phase0 with status := s } msgs0

/-- `cmd_log`: with `--init` a title is required and a fresh document is
built; otherwise the results file must exist and is parsed directly from disk
(a corrupt file raises an uncaught exception). -/
def cmdLog (a : LogArgs) (results : FileState PhaseResults)
    (plan : FileState PhasePlan) (today now : String) : LogOutcome :=
  if a.init then
    match a.title with
    | none => .exited [.errorTitleRequired]
    | some t =>
      cmdLogUpdates a plan now (newPhaseResults a.phase_id t today)
        [.initializedPhase a.phase_id]
  else
    match results with
    | .absent => .exited [.errorPhaseNotFound a.phase_id]
    | .corrupt => .crashed
    | .valid p => cmdLogUpdates a plan now p []

/-! ## `cmd_plan`: the Phase Plan handler -/

/-- Result of a `cmd_plan` invocation: the final plan-file state, the
Markdown lines written when a plan object exists, and the printed lines. -/
inductive PlanOutcome where
  | exited (planFile : FileState PhasePlan) (msgs : List Msg)
  | crashed
  | completed (planFile : FileState PhasePlan) (md : Option (List String))
      (msgs : List Msg)
deriving DecidableEq

/-- Tail of `cmd_plan`: the Markdown is written whenever a plan object is in
memory, and `--render` only adds the report line. -/
def cmdPlanRender (render : Bool) (plan : Option PhasePlan)
    (file : FileState PhasePlan) (msgs : List Msg) : PlanOutcome :=
  match plan with
  | some p =>
    .completed file (some (renderPlanMd p))
      (msgs ++ if render then [.renderedPlan] else [])
  | none => .completed file none msgs

/-- The `--add` block of `cmd_plan`. -/
def cmdPlanAdd (add : Option String) (render : Bool) (now : String)
    (plan : Option PhasePlan) (file : FileState PhasePlan) (msgs : List Msg) :
    PlanOutcome :=
  match add with
  | some s =>
    if s == "" then cmdPlanRender render plan file msgs
    else
      match plan with
      | none => .exited file (msgs ++ [.errorPlanNotFound])
      | some p =>
        let p2 := { p with items := p.items ++ [⟨s, now⟩] }
        cmdPlanRender render (some p2) (.valid p2) (msgs ++ [.addedPlanItem])
  | none => cmdPlanRender render plan file msgs

/-- The `--init` block of `cmd_plan`: a no-op message when a plan was loaded;
otherwise the title is read from the sibling results file with
`json.load(f).get("title", ...)` (a results file that is not valid JSON
raises there; `FileState.corrupt` models that unparseable case). -/
def cmdPlanSteps (pid : String) (init : Bool) (add : Option String)
    (render : Bool) (plan0 : Option PhasePlan) (file0 : FileState PhasePlan)
    (resultsFile : FileState PhaseResults) (now : String) : PlanOutcome :=
  if init then
    match plan0 with
    | some _ => cmdPlanAdd add render now plan0 file0 [.planAlreadyExists pid]
    | none =>
      match resultsFile with
      | .corrupt => .crashed
      | .absent =>
        let pl : PhasePlan := ⟨pid, "Untitled Plan", []⟩
        cmdPlanAdd add render now (some pl) (.valid pl) [.initializedPlan pid]
      | .valid r =>
        let pl : PhasePlan := ⟨pid, r.title, []⟩
        cmdPlanAdd add render now (some pl) (.valid pl) [.initializedPlan pid]
  else cmdPlanAdd add render now plan0 file0 []

/-- `cmd_plan`: the plan file, when it exists, is parsed directly from disk
(a corrupt file raises an uncaught exception) before any flag is handled. -/
def cmdPlan (pid : String) (init : Bool) (add : Option String) (render : Bool)
    (planFile : FileState PhasePlan) (resultsFile : FileState PhaseResults)
    (now : String) : PlanOutcome :=
  match planFile with
  | .corrupt => .crashed
  | .absent => cmdPlanSteps pid init add render none .absent resultsFile now
  | .valid p => cmdPlanSteps pid init add render (some p) (.valid p) resultsFile now

/-! ## `cmd_lessons`: the Lessons Learned handler -/

/-- The registry key used by the lessons add:
`str(args.phase).replace("phase", "").strip()`. -/
def normalizePid (s : String) : String :=
  pyStrip ⟨removePhaseOcc s.data⟩

/-- Result of a `cmd_lessons` invocation: final registry-file state, rendered
Markdown lines (render mode only), printed lines. -/
inductive LessonsOutcome where
  | exited (file : FileState LessonsRegistry) (msgs : List Msg)
  | completed (file : FileState LessonsRegistry) (md : Option (List String))
      (msgs : List Msg)
deriving DecidableEq

/-- The registry-file state an outcome leaves on disk. -/
def LessonsOutcome.fileState : LessonsOutcome → FileState LessonsRegistry
  | .exited f _ => f
  | .completed f _ _ => f

/-- `cmd_lessons`: load through the generic loader; `--render` writes the
Markdown and returns before any mutation; otherwise both `--phase` and
`--text` must be truthy, the phase key is normalized, an absent key is first
bound to an empty list, and the lesson is appended and saved only when its
text is not already present in that list. -/
def cmdLessons (phase text : Option String) (render : Bool)
    (file : FileState LessonsRegistry) (now : String) : LessonsOutcome :=
  let lr := load_json false ⟨[]⟩ file
  let registry := lr.1.getD ⟨[]⟩
  if render then
    .completed file (some (renderLessonsMd registry)) (lr.2 ++ [.renderedLessons])
  else if !(pyTruthy phase) || !(pyTruthy text) then
    .exited file (lr.2 ++ [.errorPhaseTextRequired])
  else
    let pid := normalizePid (phase.getD "")
    let t := text.getD ""
    let phases1 :=
      if (dictGet registry.phases pid).isNone
      then dictInsert registry.phases pid []
      else registry.phases
    let cur := (dictGet phases1 pid).getD []
    if cur.all (fun l => l.text != t) then
      .completed (.valid ⟨dictInsert phases1 pid (cur ++ [⟨t, now⟩])⟩) none
        (lr.2 ++ [.lessonAdded pid])
    else
      .completed file none (lr.2 ++ [.duplicateLesson])

/-- Number of entries with a given text in the list of a given phase key. -/
def countText (reg : LessonsRegistry) (k t : String) : Nat :=
  ((dictGet reg.phases k).getD []).countP (fun l => l.text == t)

/-! ## `cmd_inventory`: the Inventory handler -/

/-- Result of a `cmd_inventory` invocation. -/
inductive InventoryOutcome where
  | exited (file : FileState InventoryRegistry) (msgs : List Msg)
  | completed (file : FileState InventoryRegistry) (md : Option (List String))
      (msgs : List Msg)
deriving DecidableEq

/-- The registry-file state an outcome leaves on disk. -/
def InventoryOutcome.fileState : InventoryOutcome → FileState InventoryRegistry
  | .exited f _ => f
  | .completed f _ _ => f

/-- `cmd_inventory`: load through the generic loader; `--render` writes the
Markdown and returns before any mutation; otherwise `--path` must be truthy
and the item is upserted with the `or`-defaults and saved. -/
def cmdInventory (path desc cat status : Option String) (render : Bool)
    (file : FileState InventoryRegistry) : InventoryOutcome :=
  let lr := load_json false ⟨[]⟩ file
  let registry := lr.1.getD ⟨[]⟩
  if render then
    .completed file (some (renderInventoryMd registry)) (lr.2 ++ [.renderedInventory])
  else if !(pyTruthy path) then
    .exited file (lr.2 ++ [.errorPathRequired])
  else
    let pth := path.getD ""
    let item : InventoryItem :=
      ⟨pth, pyOr cat "Uncategorized", pyOr desc "No description",
        pyOr status "Active", none⟩
    .completed (.valid ⟨dictInsert registry.items pth item⟩) none
      (lr.2 ++ [.updatedInventory pth])

/-! ## `cmd_report`: the Overview handler -/

/-- Result of a `cmd_report` invocation (the handler has no error exit). -/
inductive ReportOutcome where
  | completed (file : FileState OverviewRegistry) (md : Option (List String))
      (msgs : List Msg)
deriving DecidableEq

/-- The registry-file state an outcome leaves on disk. -/
def ReportOutcome.fileState : ReportOutcome → FileState OverviewRegistry
  | .completed f _ _ => f

/-- The phase-entry upsert of `cmd_report`: the first entry with the given id
is updated in place (title always; status and description only when truthy),
otherwise a new entry is appended with the `or`-defaults. -/
def upsertPhaseEntry (l : List PhaseEntry) (pid title : String)
    (status desc : Option String) : List PhaseEntry :=
  match l with
  | [] => [⟨pid, title, pyOr status "Pending", pyOr desc ""⟩]
  | p :: ps =>
    if p.id = pid then
      { p with
        title := title
        status := if pyTruthy status then status.getD "" else p.status
        description := if pyTruthy desc then desc.getD "" else p.description } :: ps
    else p :: upsertPhaseEntry ps pid title status desc

/-- `cmd_report`: load through the generic loader; `--render` writes the
Markdown and returns before any mutation; otherwise the FAQ append and the
phase upsert each apply (and save) when their option pairs are truthy. -/
def cmdReport (phase_id title status desc add_faq_q add_faq_a : Option String)
    (render : Bool) (file : FileState OverviewRegistry) : ReportOutcome :=
  let lr := load_json false defaultOverview file
  let registry := lr.1.getD defaultOverview
  if render then
    .completed file (some (renderOverviewMd registry)) (lr.2 ++ [.renderedOverview])
  else
    let s1 :
        OverviewRegistry × FileState OverviewRegistry × List Msg :=
      if pyTruthy add_faq_q && pyTruthy add_faq_a then
        let r1 := { registry with
          faq := registry.faq ++ [⟨add_faq_q.getD "", add_faq_a.getD ""⟩] }
        (r1, .valid r1, [.addedFaq (add_faq_q.getD "")])
      else (registry, file, [])
    let s2 :
        OverviewRegistry × FileState OverviewRegistry × List Msg :=
      if pyTruthy phase_id && pyTruthy title then
        let r2 := { s1.1 with
          phases := upsertPhaseEntry s1.1.phases (phase_id.getD "")
            (title.getD "") status desc }
        (r2, .valid r2, s1.2.2 ++ [.updatedOverviewPhase (phase_id.getD "")])
      else (s1.1, s1.2.1, s1.2.2)
    .completed s2.2.1 none (lr.2 ++ s2.2.2)

/-! ## Support lemmas: dictionaries -/

theorem dictGet_insert_self {α : Type} (d : List (String × α)) (k : String) (v : α) :
    dictGet (dictInsert d k v) k = some v := by
  induction d with
  | nil => simp [dictInsert, dictGet]
  | cons hd rest ih =>
    obtain ⟨k1, v1⟩ := hd
    by_cases hk : k1 = k
    · simp [dictInsert, hk, dictGet]
    · simp [dictInsert, hk, dictGet, ih]

theorem dictGet_insert_ne {α : Type} (d : List (String × α)) (k k2 : String) (v : α)
    (h : k2 ≠ k) : dictGet (dictInsert d k v) k2 = dictGet d k2 := by
  have hk12 : k ≠ k2 := fun hh => h hh.symm
  induction d with
  | nil => simp [dictInsert, dictGet, hk12]
  | cons hd rest ih =>
    obtain ⟨k1, v1⟩ := hd
    by_cases hk : k1 = k
    · subst hk
      simp [dictInsert, dictGet, hk12]
    · simp [dictInsert, hk, dictGet, ih]

/-! ## Support lemmas: the stable sort -/

theorem perm_insertBy {α : Type} (le : α → α → Bool) (x : α) (l : List α) :
    List.Perm (insertBy le x l) (x :: l) := by
  induction l with
  | nil => simp [insertBy]
  | cons y ys ih =>
    by_cases hc : le x y
    · simp [insertBy, hc]
    · simp only [insertBy, hc, Bool.false_eq_true, if_false]
      exact (ih.cons y).trans (List.Perm.swap x y ys)

theorem perm_insertionSortBy {α : Type} (le : α → α → Bool) (l : List α) :
    List.Perm (insertionSortBy le l) l := by
  induction l with
  | nil => simp [insertionSortBy]
  | cons x xs ih =>
    exact (perm_insertBy le x (insertionSortBy le xs)).trans (ih.cons x)

theorem mem_insertBy {α : Type} (le : α → α → Bool) (x y : α) (l : List α)
    (h : y ∈ insertBy le x l) : y = x ∨ y ∈ l := by
  have := (perm_insertBy le x l).mem_iff.mp h
  simpa using this

theorem pairwise_insertBy {α : Type} (f : α → Int) (x : α) (l : List α)
    (h : l.Pairwise (fun a b => f a ≤ f b)) :
    (insertBy (fun a b => decide (f a ≤ f b)) x l).Pairwise
      (fun a b => f a ≤ f b) := by
  induction l with
  | nil => simp [insertBy]
  | cons y ys ih =>
    rcases List.pairwise_cons.mp h with ⟨hy, hys⟩
    by_cases hc : f x ≤ f y
    · have hcb : (decide (f x ≤ f y)) = true := decide_eq_true hc
      simp only [insertBy, hcb, if_true]
      refine List.pairwise_cons.mpr ⟨?_, h⟩
      intro z hz
      rcases List.mem_cons.mp hz with rfl | hz2
      · exact hc
      · exact le_trans hc (hy z hz2)
    · have hcb : (decide (f x ≤ f y)) = false := decide_eq_false hc
      simp only [insertBy, hcb, Bool.false_eq_true, if_false]
      refine List.pairwise_cons.mpr ⟨?_, ih hys⟩
      intro z hz
      rcases mem_insertBy _ x z _ hz with rfl | hz2
      · exact le_of_not_le hc
      · exact hy z hz2

theorem sortByKey_perm {α : Type} (f : α → Int) (l : List α) :
    List.Perm (sortByKey f l) l :=
  perm_insertionSortBy _ l

theorem sortByKey_pairwise {α : Type} (f : α → Int) (l : List α) :
    (sortByKey f l).Pairwise (fun a b => f a ≤ f b) := by
  induction l with
  | nil => simp [sortByKey, insertionSortBy]
  | cons x xs ih => exact pairwise_insertBy f x _ ih

theorem filter_insertBy {α : Type} (f : α → Int) (v : Int) (x : α) (l : List α) :
    (insertBy (fun a b => decide (f a ≤ f b)) x l).filter (fun y => decide (f y = v)) =
      if f x = v then x :: l.filter (fun y => decide (f y = v))
      else l.filter (fun y => decide (f y = v)) := by
  induction l with
  | nil => by_cases hv : f x = v <;> simp [insertBy, List.filter, hv]
  | cons y ys ih =>
    by_cases hc : f x ≤ f y
    · have hcb : (decide (f x ≤ f y)) = true := decide_eq_true hc
      simp only [insertBy, hcb, if_true]
      by_cases hv : f x = v <;> simp [List.filter, hv]
    · have hcb : (decide (f x ≤ f y)) = false := decide_eq_false hc
      have hyx : f y < f x := lt_of_not_le hc
      simp only [insertBy, hcb, Bool.false_eq_true, if_false]
      by_cases hv : f x = v
      · have hyv : ¬(f y = v) := by
          intro hh
          exact absurd (hh.trans hv.symm) (ne_of_lt hyx)
        simp [List.filter, hv, hyv, ih]
      · by_cases hyv : f y = v <;> simp [List.filter, hv, hyv, ih]

theorem sortByKey_stable {α : Type} (f : α → Int) (v : Int) (l : List α) :
    (sortByKey f l).filter (fun y => decide (f y = v)) =
      l.filter (fun y => decide (f y = v)) := by
  induction l with
  | nil => simp [sortByKey, insertionSortBy]
  | cons x xs ih =>
    simp only [sortByKey, insertionSortBy] at ih ⊢
    rw [filter_insertBy]
    by_cases hv : f x = v <;> simp [List.filter, hv, ih]

/-! ## Support lemmas: lesson counting -/

theorem all_text_ne_iff (l : List Lesson) (t : String) :
    (l.all (fun x => x.text != t) = true) ↔
      l.countP (fun x => x.text == t) = 0 := by
  rw [List.all_eq_true, List.countP_eq_zero]
  simp

/-! ## Support lemmas: handler unfoldings -/

/-- Behaviour of a lessons add with both options truthy, as a single case
split on the duplicate check. -/
theorem cmdLessons_add_eq (p t : String) (reg : LessonsRegistry) (now : String)
    (hp : p ≠ "") (ht : t ≠ "") :
    cmdLessons (some p) (some t) false (.valid reg) now =
      (if (((dictGet (if (dictGet reg.phases (normalizePid p)).isNone
              then dictInsert reg.phases (normalizePid p) []
              else reg.phases) (normalizePid p)).getD []).all
            (fun l => l.text != t)) then
        .completed (.valid ⟨dictInsert
            (if (dictGet reg.phases (normalizePid p)).isNone
              then dictInsert reg.phases (normalizePid p) []
              else reg.phases) (normalizePid p)
            (((dictGet (if (dictGet reg.phases (normalizePid p)).isNone
                then dictInsert reg.phases (normalizePid p) []
                else reg.phases) (normalizePid p)).getD []) ++ [⟨t, now⟩])⟩) none
          [.lessonAdded (normalizePid p)]
      else .completed (.valid reg) none [.duplicateLesson]) := by
  simp [cmdLessons, load_json, pyTruthy, hp, ht]

/-- Behaviour of an inventory add with a truthy path. -/
theorem cmdInventory_add_eq (pth : String) (desc cat status : Option String)
    (reg : InventoryRegistry) (h : pth ≠ "") :
    cmdInventory (some pth) desc cat status false (.valid reg) =
      .completed (.valid ⟨dictInsert reg.items pth
          ⟨pth, pyOr cat "Uncategorized", pyOr desc "No description",
            pyOr status "Active", none⟩⟩) none [.updatedInventory pth] := by
  simp [cmdInventory, load_json, pyTruthy, h]

/-! ## Claim C1 -/

/-- A `log` argument namespace carrying only a `--status` option. -/
def logArgsStatus (pid s : String) : LogArgs :=
  ⟨pid, false, none, some s, none, none, none, none, none, none, none, none, none⟩

/-- C1: an invocation of the Phase Result status update with a new status
that lowercases to `"active"` exits with a reported error when the plan file
is absent, exits when the plan item list is empty, and completes with the
status set when the plan has at least one item; any other (truthy) status
value is set unconditionally, whatever the plan file state. -/
theorem C1_active_status_gate (pid s : String) (r : PhaseResults) (pl : PhasePlan)
    (plf : FileState PhasePlan) (today now : String) :
    (pyLower s = "active" →
      cmdLog (logArgsStatus pid s) (.valid r) .absent today now
          = .exited [.errorActiveNeedsPlan]
      ∧ (pl.items = [] →
          cmdLog (logArgsStatus pid s) (.valid r) (.valid pl) today now
            = .exited [.errorPlanEmpty])
      ∧ (pl.items ≠ [] →
          cmdLog (logArgsStatus pid s) (.valid r) (.valid pl) today now
            = .completed { r with status := s } [.updatedPhase pid]))
    ∧ (s ≠ "" → pyLower s ≠ "active" →
        cmdLog (logArgsStatus pid s) (.valid r) plf today now
          = .completed { r with status := s } [.updatedPhase pid]) := by
  constructor
  · intro hs
    have hne : s ≠ "" := by
      intro he
      rw [he] at hs
      exact absurd hs (by decide)
    refine ⟨?_, ?_, ?_⟩
    · simp [cmdLog, logArgsStatus, cmdLogUpdates, hne, hs]
    · intro hempty
      simp [cmdLog, logArgsStatus, cmdLogUpdates, hne, hs, hempty]
    · intro hnonempty
      simp [cmdLog, logArgsStatus, cmdLogUpdates, hne, hs,
        List.isEmpty_iff.not.mpr hnonempty, cmdLogAppends, pyTruthy]
  · intro hne hs
    simp [cmdLog, logArgsStatus, cmdLogUpdates, hne, hs, cmdLogAppends, pyTruthy]

/-- Example documents for the C1 witness. -/
def c1ResEx : PhaseResults := newPhaseResults "3" "Bootstrap" "2026-01-01"

/-- Example plan with one item for the C1 witness. -/
def c1PlanEx : PhasePlan := ⟨"3", "Bootstrap", [⟨"Stand up infra", "2026-01-02"⟩]⟩

/-- Witness for C1 at concrete inputs: activation fails without a plan,
succeeds with a one-item plan, and a non-active status needs no plan. -/
theorem C1_active_status_gate_witness :
    cmdLog (logArgsStatus "3" "Active") (.valid c1ResEx) .absent "d" "t"
        = .exited [.errorActiveNeedsPlan]
    ∧ cmdLog (logArgsStatus "3" "Active") (.valid c1ResEx) (.valid c1PlanEx) "d" "t"
        = .completed { c1ResEx with status := "Active" } [.updatedPhase "3"]
    ∧ cmdLog (logArgsStatus "3" "Done") (.valid c1ResEx) .absent "d" "t"
        = .completed { c1ResEx with status := "Done" } [.updatedPhase "3"] :=
  ⟨((C1_active_status_gate "3" "Active" c1ResEx c1PlanEx .absent "d" "t").1
      (by decide)).1,
   ((C1_active_status_gate "3" "Active" c1ResEx c1PlanEx .absent "d" "t").1
      (by decide)).2.2 (by decide),
   (C1_active_status_gate "3" "Done" c1ResEx c1PlanEx .absent "d" "t").2
      (by decide) (by decide)⟩

/-! ## Claim C2 -/

/-- C2: the directory token of a phase id is `phase_` followed by the parsed
integer zero-padded to width 2 when the id parses, and `phase_` followed by
the raw id verbatim otherwise; `cmd_log`, `cmd_plan` and
`PhaseResults.get_dir` all use this same rule. -/
theorem C2_phase_id_canonicalization :
    (∀ (pid : String) (n : Int), pyParseInt pid = some n →
      cmdLogDirname pid =
        "phase_" ++ (if 0 ≤ n ∧ n < 10 then "0" ++ toString n else toString n))
    ∧ (∀ pid : String, pyParseInt pid = none → cmdLogDirname pid = "phase_" ++ pid)
    ∧ (∀ pid : String, cmdPlanDirname pid = cmdLogDirname pid)
    ∧ (∀ p : PhaseResults, p.getDirname = cmdLogDirname p.phase_id) := by
  refine ⟨?_, ?_, ?_, ?_⟩
  · intro pid n h
    simp [cmdLogDirname, h, pyFormat02d]
  · intro pid h
    simp [cmdLogDirname, h]
  · intro pid
    rfl
  · intro p
    rfl

/-- Witness for C2 at concrete ids: `"3"` and `"42"` parse and are padded,
`"phase_07"` and `"abc"` do not parse and are used verbatim. -/
theorem C2_phase_id_canonicalization_witness :
    pyParseInt "3" = some 3 ∧ cmdLogDirname "3" = "phase_03"
    ∧ pyParseInt "42" = some 42 ∧ cmdLogDirname "42" = "phase_42"
    ∧ pyParseInt "phase_07" = none ∧ cmdLogDirname "phase_07" = "phase_phase_07"
    ∧ pyParseInt "abc" = none ∧ cmdLogDirname "abc" = "phase_abc" :=
  ⟨by decide,
   (C2_phase_id_canonicalization.1 "3" 3 (by decide)).trans (by decide),
   by decide,
   (C2_phase_id_canonicalization.1 "42" 42 (by decide)).trans (by decide),
   by decide,
   (C2_phase_id_canonicalization.2.1 "phase_07" (by decide)),
   by decide,
   (C2_phase_id_canonicalization.2.1 "abc" (by decide))⟩

/-! ## Claim C3 -/

/-- A `log` argument namespace with only a harmless `--status Done`. -/
def c3Args : LogArgs :=
  ⟨"3", false, none, some "Done", none, none, none, none, none, none, none, none, none⟩

/-- C3 counterexample: a results file that exists but fails to parse makes
`cmd_log` abort fatally with an uncaught exception (the direct
`PhaseResults(**json.load(f))` read has no try/except), with no reported
recovery and no substituted default document — so it is false that every
document load whose file exists but fails to parse or validate is recovered
by reporting and substituting a default. -/
theorem C3_counterexample :
    cmdLog c3Args .corrupt .absent "d" "t" = .crashed := rfl

/-- C3 amended: the generic loader `load_json` recovers a file that fails to
parse or validate by reporting and substituting the default document, and an
absent file yields the default (or `None` for the Phase Result type); the
Phase Result handler treats an absent results file as a user input error with
a reported non-zero exit; but the Phase Result and Phase Plan handlers read
their documents directly from disk, so an existing file that fails to parse
aborts the invocation fatally instead of being substituted. -/
theorem C3_load_recovery_amended :
    (∀ (α : Type) (d : α), load_json false d .corrupt = (some d, [Msg.errorLoading]))
    ∧ (∀ (α : Type) (d : α), load_json false d .absent = (some d, []))
    ∧ (∀ (α : Type) (d : α), load_json true d .absent = (none, []))
    ∧ (∀ (pid : String) (title status action outc obj fnd nxt ut uc ud : Option String)
        (arts : Option (List String)) (plan : FileState PhasePlan) (today now : String),
        cmdLog ⟨pid, false, title, status, action, outc, obj, fnd, nxt, ut, uc, ud, arts⟩
            .absent plan today now = .exited [.errorPhaseNotFound pid])
    ∧ (∀ (pid : String) (title status action outc obj fnd nxt ut uc ud : Option String)
        (arts : Option (List String)) (plan : FileState PhasePlan) (today now : String),
        cmdLog ⟨pid, false, title, status, action, outc, obj, fnd, nxt, ut, uc, ud, arts⟩
            .corrupt plan today now = .crashed)
    ∧ (∀ (pid : String) (init : Bool) (add : Option String) (render : Bool)
        (results : FileState PhaseResults) (now : String),
        cmdPlan pid init add render .corrupt results now = .crashed) := by
  refine ⟨?_, ?_, ?_, ?_, ?_, ?_⟩ <;> intros <;> rfl

/-! ## Claim C4 -/

/-- C4: starting from any registry state that satisfies the uniqueness
invariant (at most one entry with the given text in the phase key used),
adding a lesson twice with the same phase and text leaves the registry with
exactly one entry with that text in that phase list: the second add is a
non-failing no-op that prints the distinct duplicate message and leaves the
registry file unchanged. -/
theorem C4_duplicate_lesson_idempotent (p t : String) (reg : LessonsRegistry)
    (now now2 : String) (hp : p ≠ "") (ht : t ≠ "")
    (hinv : countText reg (normalizePid p) t ≤ 1) :
    ∃ (r1 : LessonsRegistry) (m1 : List Msg),
      cmdLessons (some p) (some t) false (.valid reg) now
        = .completed (.valid r1) none m1
      ∧ countText r1 (normalizePid p) t = 1
      ∧ cmdLessons (some p) (some t) false (.valid r1) now2
          = .completed (.valid r1) none [.duplicateLesson] := by
  rw [cmdLessons_add_eq p t reg now hp ht]
  rcases hg : dictGet reg.phases (normalizePid p) with _ | lst
  · -- key absent: the first add binds the key and appends
    have hg1 : dictGet (dictInsert reg.phases (normalizePid p) ([] : List Lesson))
        (normalizePid p) = some [] := dictGet_insert_self _ _ _
    refine ⟨⟨dictInsert (dictInsert reg.phases (normalizePid p) [])
        (normalizePid p) [⟨t, now⟩]⟩, [.lessonAdded (normalizePid p)], ?_, ?_, ?_⟩
    · simp [hg, hg1]
    · simp [countText, dictGet_insert_self, List.countP_cons]
    · rw [cmdLessons_add_eq p t _ now2 hp ht]
      have hg2 : dictGet (dictInsert (dictInsert reg.phases (normalizePid p) [])
          (normalizePid p) [⟨t, now⟩]) (normalizePid p) = some [⟨t, now⟩] :=
        dictGet_insert_self _ _ _
      simp [hg2]
  · -- key present
    by_cases hall : lst.all (fun l => l.text != t)
    · -- text not yet present: append
      refine ⟨⟨dictInsert reg.phases (normalizePid p) (lst ++ [⟨t, now⟩])⟩,
        [.lessonAdded (normalizePid p)], ?_, ?_, ?_⟩
      · simp [hg, hall]
      · have hz : lst.countP (fun l => l.text == t) = 0 :=
          (all_text_ne_iff lst t).mp hall
        simp [countText, dictGet_insert_self, List.countP_append,
          List.countP_cons, hz]
      · rw [cmdLessons_add_eq p t _ now2 hp ht]
        have hg2 : dictGet (dictInsert reg.phases (normalizePid p)
            (lst ++ [⟨t, now⟩])) (normalizePid p) = some (lst ++ [⟨t, now⟩]) :=
          dictGet_insert_self _ _ _
        have hdup : ((lst ++ [(⟨t, now⟩ : Lesson)]).all (fun l => l.text != t)) = false := by
          simp [List.all_append]
        simp [hg2, hdup]
    · -- text already present exactly once: both adds are no-ops
      have hpos : lst.countP (fun l => l.text == t) ≠ 0 := by
        intro hz
        exact hall ((all_text_ne_iff lst t).mpr hz)
      have hone : countText reg (normalizePid p) t = 1 := by
        have : countText reg (normalizePid p) t ≠ 0 := by
          simpa [countText, hg] using hpos
        omega
      refine ⟨reg, [.duplicateLesson], ?_, hone, ?_⟩
      · simp [hg, hall]
      · rw [cmdLessons_add_eq p t reg now2 hp ht]
        simp [hg, hall]

/-- Witness for C4: adding the lesson `"x"` twice to phase `"3"` of the empty
registry keeps exactly one entry. -/
theorem C4_duplicate_lesson_idempotent_witness :
    ("3" : String) ≠ "" ∧ ("x" : String) ≠ ""
    ∧ countText ⟨[]⟩ (normalizePid "3") "x" ≤ 1
    ∧ ∃ (r1 : LessonsRegistry) (m1 : List Msg),
        cmdLessons (some "3") (some "x") false (.valid ⟨[]⟩) "a"
          = .completed (.valid r1) none m1
        ∧ countText r1 (normalizePid "3") "x" = 1
        ∧ cmdLessons (some "3") (some "x") false (.valid r1) "b"
            = .completed (.valid r1) none [.duplicateLesson] :=
  ⟨by decide, by decide, by decide,
   C4_duplicate_lesson_idempotent "3" "x" ⟨[]⟩ "a" "b" (by decide) (by decide)
     (by decide)⟩

/-! ## Claim C5 -/

/-- C5: invoking plan init when a (well-formed) plan file already exists is a
no-op with the distinct already-exists message: the plan file on disk,
including its item list, is left exactly as it was; the Markdown mirror is
still re-rendered from the unchanged document. -/
theorem C5_plan_init_idempotent (pid : String) (p : PhasePlan) (render : Bool)
    (resultsFile : FileState PhaseResults) (now : String) :
    cmdPlan pid true none render (.valid p) resultsFile now =
      .completed (.valid p) (some (renderPlanMd p))
        ([.planAlreadyExists pid] ++ if render then [.renderedPlan] else []) := by
  simp [cmdPlan, cmdPlanSteps, cmdPlanAdd, cmdPlanRender]

/-! ## Claim C6 -/

/-- Modelled from the spec words, for comparison only: the phase id with a
literal leading label `phase` removed and surrounding whitespace stripped —
nothing else in the string changed. -/
def specNormalizePid (s : String) : String :=
  pyStrip (if List.isPrefixOf "phase".data s.data then ⟨s.data.drop 5⟩ else s)

/-- C6 counterexample: for the id `"aphaseb"` the code stores the lesson
under the key `"ab"` — the inner, non-leading occurrence of `phase` is
removed as well, so the key is not the id with only a leading label and
surrounding whitespace stripped (which would leave `"aphaseb"` unchanged). -/
theorem C6_counterexample :
    cmdLessons (some "aphaseb") (some "t") false (.valid ⟨[]⟩) "ts"
        = .completed (.valid ⟨[("ab", [⟨"t", "ts"⟩])]⟩) none [.lessonAdded "ab"]
    ∧ normalizePid "aphaseb" = "ab"
    ∧ specNormalizePid "aphaseb" = "aphaseb" := by
  refine ⟨by decide, by decide, by decide⟩

/-- C6 amended: the registry key is the phase id with every non-overlapping
occurrence of the substring `phase` removed, scanning left to right, and
leading/trailing whitespace then stripped — occurrences anywhere in the id
are removed, not only a leading label; the add lands exactly under that key
and touches no other key. -/
theorem C6_lessons_key_amended (p t : String) (reg : LessonsRegistry)
    (now : String) (hp : p ≠ "") (ht : t ≠ "") :
    (∃ r1 : LessonsRegistry,
        cmdLessons (some p) (some t) false (.valid reg) now
          = .completed (.valid r1) none [.lessonAdded (normalizePid p)]
        ∧ dictGet r1.phases (normalizePid p)
            = some (((dictGet reg.phases (normalizePid p)).getD []) ++ [⟨t, now⟩])
        ∧ (∀ k, k ≠ normalizePid p → dictGet r1.phases k = dictGet reg.phases k))
    ∨ cmdLessons (some p) (some t) false (.valid reg) now
        = .completed (.valid reg) none [.duplicateLesson] := by
  rw [cmdLessons_add_eq p t reg now hp ht]
  rcases hg : dictGet reg.phases (normalizePid p) with _ | lst
  · left
    have hg1 : dictGet (dictInsert reg.phases (normalizePid p) ([] : List Lesson))
        (normalizePid p) = some [] := dictGet_insert_self _ _ _
    refine ⟨⟨dictInsert (dictInsert reg.phases (normalizePid p) [])
        (normalizePid p) [⟨t, now⟩]⟩, ?_, ?_, ?_⟩
    · simp [hg, hg1]
    · simp [hg, dictGet_insert_self]
    · intro k hk
      rw [dictGet_insert_ne _ _ _ _ hk, dictGet_insert_ne _ _ _ _ hk]
  · by_cases hall : lst.all (fun l => l.text != t)
    · left
      refine ⟨⟨dictInsert reg.phases (normalizePid p) (lst ++ [⟨t, now⟩])⟩,
        ?_, ?_, ?_⟩
      · simp [hg, hall]
      · simp [hg, dictGet_insert_self]
      · intro k hk
        exact dictGet_insert_ne _ _ _ _ hk
    · right
      simp [hg, hall]

/-- Witness for C6 amended: the id `" phase 7 "` lands under the key `"7"`. -/
theorem C6_lessons_key_amended_witness :
    (" phase 7 " : String) ≠ "" ∧ ("x" : String) ≠ ""
    ∧ normalizePid " phase 7 " = "7"
    ∧ ((∃ r1 : LessonsRegistry,
          cmdLessons (some " phase 7 ") (some "x") false (.valid ⟨[]⟩) "ts"
            = .completed (.valid r1) none [.lessonAdded (normalizePid " phase 7 ")]
          ∧ dictGet r1.phases (normalizePid " phase 7 ")
              = some (((dictGet (⟨[]⟩ : LessonsRegistry).phases
                  (normalizePid " phase 7 ")).getD []) ++ [⟨"x", "ts"⟩])
          ∧ (∀ k, k ≠ normalizePid " phase 7 " →
              dictGet r1.phases k = dictGet (⟨[]⟩ : LessonsRegistry).phases k))
        ∨ cmdLessons (some " phase 7 ") (some "x") false (.valid ⟨[]⟩) "ts"
            = .completed (.valid ⟨[]⟩) none [.duplicateLesson]) :=
  ⟨by decide, by decide, by decide,
   C6_lessons_key_amended " phase 7 " "x" ⟨[]⟩ "ts" (by decide) (by decide)⟩

/-! ## Claim C7 -/

/-- C7 counterexample: with keys `"1000"` and `"abc"` the non-numeric key
`"abc"` (sentinel 999) sorts before the numeric key `"1000"` in both the
lessons render order and the overview roadmap order — so it is false that
every non-numeric key sorts after all numeric keys for numeric ids of any
magnitude. -/
theorem C7_counterexample :
    sortedLessonKeys ⟨[("1000", []), ("abc", [])]⟩ = ["abc", "1000"]
    ∧ sortedOverviewPhases
        ⟨"T", "", "", [⟨"1000", "A", "P", ""⟩, ⟨"abc", "B", "P", ""⟩], [], []⟩
        = [⟨"abc", "B", "P", ""⟩, ⟨"1000", "A", "P", ""⟩] := by
  refine ⟨by decide, by decide⟩

/-- C7 amended: both render orders are the stable sort of the keys/entries by
the sentinel key that maps an all-digit id to its numeric value and every
other id to the fixed value 999: the output is a permutation of the input,
it is monotone in that sentinel key (so all-digit ids below 999 precede
non-numeric ids, while all-digit ids above 999 follow them), and ids with
equal sentinel values — in particular all non-numeric ids — keep their
original relative order. -/
theorem C7_render_order_amended (reg : LessonsRegistry) (ov : OverviewRegistry) :
    List.Perm (sortedLessonKeys reg) (reg.phases.map Prod.fst)
    ∧ (sortedLessonKeys reg).Pairwise
        (fun a b => lessonsSortKey a ≤ lessonsSortKey b)
    ∧ (∀ v : Int, (sortedLessonKeys reg).filter (fun x => decide (lessonsSortKey x = v))
        = (reg.phases.map Prod.fst).filter (fun x => decide (lessonsSortKey x = v)))
    ∧ List.Perm (sortedOverviewPhases ov) ov.phases
    ∧ (sortedOverviewPhases ov).Pairwise
        (fun a b => overviewSortKey a ≤ overviewSortKey b)
    ∧ (∀ v : Int, (sortedOverviewPhases ov).filter (fun x => decide (overviewSortKey x = v))
        = ov.phases.filter (fun x => decide (overviewSortKey x = v))) :=
  ⟨sortByKey_perm _ _, sortByKey_pairwise _ _, fun v => sortByKey_stable _ v _,
   sortByKey_perm _ _, sortByKey_pairwise _ _, fun v => sortByKey_stable _ v _⟩

/-! ## Claim C8 -/

/-- C8: the inventory add upserts the item keyed by the given path, replacing
every field of any existing item at that path, with the defaults substituted
for absent (or empty) inputs: description `"No description"`, category
`"Uncategorized"`, status `"Active"`; all other paths are untouched. -/
theorem C8_inventory_upsert (pth : String) (desc cat status : Option String)
    (reg : InventoryRegistry) (h : pth ≠ "") :
    ∃ r1 : InventoryRegistry,
      cmdInventory (some pth) desc cat status false (.valid reg)
          = .completed (.valid r1) none [.updatedInventory pth]
      ∧ dictGet r1.items pth = some ⟨pth, pyOr cat "Uncategorized",
          pyOr desc "No description", pyOr status "Active", none⟩
      ∧ (∀ k, k ≠ pth → dictGet r1.items k = dictGet reg.items k) := by
  refine ⟨⟨dictInsert reg.items pth ⟨pth, pyOr cat "Uncategorized",
      pyOr desc "No description", pyOr status "Active", none⟩⟩,
    cmdInventory_add_eq pth desc cat status reg h, dictGet_insert_self _ _ _, ?_⟩
  intro k hk
  exact dictGet_insert_ne _ _ _ _ hk

/-- An existing inventory item, with a stored usage value, for the C8 and C9
witnesses. -/
def c8ItemEx : InventoryItem :=
  ⟨"tools/x.py", "Old cat", "Old desc", "Retired", some "python tools/x.py"⟩

/-- Witness for C8: re-adding path `"tools/x.py"` with absent inputs replaces
every field of the stored item with the defaults. -/
theorem C8_inventory_upsert_witness :
    ("tools/x.py" : String) ≠ ""
    ∧ ∃ r1 : InventoryRegistry,
        cmdInventory (some "tools/x.py") none none none false
            (.valid ⟨[("tools/x.py", c8ItemEx)]⟩)
          = .completed (.valid r1) none [.updatedInventory "tools/x.py"]
        ∧ dictGet r1.items "tools/x.py" = some ⟨"tools/x.py", pyOr none "Uncategorized",
            pyOr none "No description", pyOr none "Active", none⟩
        ∧ (∀ k, k ≠ "tools/x.py" →
            dictGet r1.items k = dictGet (⟨[("tools/x.py", c8ItemEx)]⟩ :
              InventoryRegistry).items k) :=
  ⟨by decide,
   C8_inventory_upsert "tools/x.py" none none none ⟨[("tools/x.py", c8ItemEx)]⟩
     (by decide)⟩

/-! ## Claim C9 -/

/-- C9: every inventory item written by the inventory add has `usage = None`:
the upsert writes `None` over any previously stored usage value at that path,
every other entry is untouched, so the all-usage-`None` invariant is
preserved by the only inventory mutation the program performs (the render
mode writes nothing). -/
theorem C9_usage_always_none (pth : String) (desc cat status : Option String)
    (reg : InventoryRegistry) (h : pth ≠ "") :
    ∃ r1 : InventoryRegistry,
      cmdInventory (some pth) desc cat status false (.valid reg)
          = .completed (.valid r1) none [.updatedInventory pth]
      ∧ (∀ i, dictGet r1.items pth = some i → i.usage = none)
      ∧ ((∀ k i, dictGet reg.items k = some i → i.usage = none) →
          ∀ k i, dictGet r1.items k = some i → i.usage = none) := by
  refine ⟨⟨dictInsert reg.items pth ⟨pth, pyOr cat "Uncategorized",
      pyOr desc "No description", pyOr status "Active", none⟩⟩,
    cmdInventory_add_eq pth desc cat status reg h, ?_, ?_⟩
  · intro i hi
    rw [dictGet_insert_self] at hi
    cases hi
    rfl
  · intro hall k i hi
    by_cases hk : k = pth
    · subst hk
      rw [dictGet_insert_self] at hi
      cases hi
      rfl
    · rw [dictGet_insert_ne _ _ _ _ hk] at hi
      exact hall k i hi

/-- Witness for C9: upserting over a stored non-null usage value resets it to
`None`. -/
theorem C9_usage_always_none_witness :
    ("tools/x.py" : String) ≠ ""
    ∧ dictGet (⟨[("tools/x.py", c8ItemEx)]⟩ : InventoryRegistry).items "tools/x.py"
        = some c8ItemEx
    ∧ c8ItemEx.usage = some "python tools/x.py"
    ∧ ∃ r1 : InventoryRegistry,
        cmdInventory (some "tools/x.py") (some "d") (some "c") (some "s") false
            (.valid ⟨[("tools/x.py", c8ItemEx)]⟩)
          = .completed (.valid r1) none [.updatedInventory "tools/x.py"]
        ∧ (∀ i, dictGet r1.items "tools/x.py" = some i → i.usage = none)
        ∧ ((∀ k i, dictGet (⟨[("tools/x.py", c8ItemEx)]⟩ :
              InventoryRegistry).items k = some i → i.usage = none) →
            ∀ k i, dictGet r1.items k = some i → i.usage = none) :=
  ⟨by decide, by decide, by decide,
   C9_usage_always_none "tools/x.py" (some "d") (some "c") (some "s")
     ⟨[("tools/x.py", c8ItemEx)]⟩ (by decide)⟩

/-! ## Claim C10 -/

/-- C10: with the render flag set, the lessons, inventory and report commands
complete after rendering without mutating their registry file: the final
file state equals the input file state for every combination of mutation
options supplied alongside the flag. -/
theorem C10_render_no_mutation :
    (∀ (phase text : Option String) (now : String) (lf : FileState LessonsRegistry),
      ∃ md m, cmdLessons phase text true lf now = .completed lf md m)
    ∧ (∀ (path desc cat status : Option String) (vf : FileState InventoryRegistry),
      ∃ md m, cmdInventory path desc cat status true vf = .completed vf md m)
    ∧ (∀ (pid title status desc q a2 : Option String) (ofile : FileState OverviewRegistry),
      ∃ md m, cmdReport pid title status desc q a2 true ofile = .completed ofile md m) := by
  refine ⟨?_, ?_, ?_⟩ <;> intros <;> exact ⟨_, _, rfl⟩

end ManageProject
